import Mathlib

/-!
Verification of the conversation-orchestration core of the Gemma3 repository.

Python strings are modelled as lists of code points (`List Char`), Python
`None` as `Option.none`, raised exceptions as `Except.error`, and the
external generative-model API (Google GenAI `send_message` and
`generate_content`, base64 decoding, image parsing) as function parameters,
since the spec treats them as external collaborators.  All stateful code is
modelled by explicit state passing.
-/

namespace Gemma3

/-- Python strings are sequences of code points. -/
abbrev Str := List Char

/-- Coerce a Lean string literal to its code-point list. -/
def chars (s : String) : Str := s.data

/-! Embedding of ai_assistant.py : GemmaAssistant.summarize_document.

The source splits a long text with the comprehension
`chunks = [text[i:i+10000] for i in range(0, len(text), 10000)]`
(src/ai_assistant.py line 96); the constant 10000 is the chunk size,
generalised here to the parameter `c` the spec calls `C`. -/

/-- Python `range(0, stop, step)` as a list (empty when `step = 0`,
matching that the Python call would be invalid there). -/
def pyRange (stop step : Nat) : List Nat :=
  (List.range ((stop + step - 1) / step)).map (fun k => k * step)

/-- The chunk list `[text[i:i+c] for i in range(0, len(text), c)]` from
src/ai_assistant.py line 96: `text[i:i+c]` is `(text.drop i).take c`. -/
def summarizeChunks (text : Str) (c : Nat) : List Str :=
  (pyRange text.length c).map (fun i => (text.drop i).take c)

/-! Embedding of ai_assistant.py : the chat sampler and summarize_document.

The `gm.text.ChatSampler` (multi-turn) is an external collaborator: it is
modelled as a deterministic reply function `g` from the full sequence of
prompts sent so far to the reply text, together with the explicit sampler
state `Sampler`, whose `hist` records every prompt sent (one entry per
model invocation). -/

/-- State of the multi-turn chat sampler: the prompts sent so far.  Its
length is the number of model invocations made through the sampler. -/
structure Sampler where
  hist : List Str
deriving DecidableEq

/-- The `chat_sampler.send_message(prompt)` call: records the prompt and
returns the reply the external model `g` produces for the accumulated
prompt sequence. -/
def send_message (g : List Str → Str) (s : Sampler) (prompt : Str) :
    Sampler × Str :=
  (⟨s.hist ++ [prompt]⟩, g (s.hist ++ [prompt]))

/-- The separator in the f-string of `process_text` and in the join of
the chunk summaries. -/
def nl2 : Str := ['\n', '\n']

/-- GemmaAssistant.process_text (src/ai_assistant.py lines 56-63) with the
prompt always supplied, as in every call made by summarize_document. -/
def process_text (g : List Str → Str) (s : Sampler) (text prompt : Str) :
    Sampler × Str :=
  send_message g s (prompt ++ nl2 ++ text)

/-- The per-chunk prompt of src/ai_assistant.py line 101. -/
def chunkPrompt (i n : Nat) : Str :=
  chars ("This is part " ++ toString (i + 1) ++ " of " ++ toString n
    ++ " of a document. Please summarize this section:")

/-- The combine prompt of src/ai_assistant.py line 109. -/
def combinePrompt : Str :=
  chars ("The following are summaries of different parts of a document. "
    ++ "Please provide a coherent overall summary:")

/-- The short-document prompt of src/ai_assistant.py line 113. -/
def docPrompt : Str := chars "Please summarize this document:"

/-- The message returned when the extracted text is falsy
(src/ai_assistant.py line 92). -/
def extractErrMsg : Str :=
  chars "Error: Could not extract text from the document."

/-- One iteration of the chunk loop of src/ai_assistant.py lines 99-103:
summarize chunk `p.2` (index `p.1`) and append the summary. -/
def chunkStep (g : List Str → Str) (n : Nat) (st : Sampler × List Str)
    (p : Nat × Str) : Sampler × List Str :=
  let r := process_text g st.1 p.2 (chunkPrompt p.1 n)
  (r.1, st.2 ++ [r.2])

/-- GemmaAssistant.summarize_document (src/ai_assistant.py lines 88-113)
after text extraction, which is external.  The source hard-codes the chunk
size 10000; it is the parameter `c` here, as in the spec.  Returns the
final sampler state (whose `hist` length counts the model invocations)
and the result text. -/
def summarize_document (g : List Str → Str) (c : Nat) (s : Sampler)
    (text : Str) : Sampler × Str :=
  if text = [] then (s, extractErrMsg)
  else if c < text.length then
    let chunks := summarizeChunks text c
    let folded := chunks.enum.foldl (chunkStep g chunks.length) (s, [])
    let combined := List.intercalate nl2 folded.2
    process_text g folded.1 combined combinePrompt
  else
    process_text g s text docPrompt

/-- Python `str.strip()` character class (claim-side helper used only to
state that an input is empty after trimming). -/
def isPySpace (c : Char) : Bool :=
  c = ' ' || c = '\t' || c = '\n' || c = '\r' || c = '\x0b' || c = '\x0c'

/-- Python `s.strip()` on a code-point list. -/
def pyStrip (s : Str) : Str :=
  ((s.dropWhile isPySpace).reverse.dropWhile isPySpace).reverse

/-- Stub reply function used by concrete witnesses. -/
def gStub : List Str → Str := fun _ => chars "S"

/-- A concrete 15-character text for the call-count witness. -/
def t15 : Str := chars "aaaaaaaaaaaaaaa"

/-! Embedding of gemma_web_app.py and web_interface.py : the async dispatcher.

The response_queue is a FIFO: workers append completed entries at the
tail and check_status removes from the head, so the head is the oldest
entry.  External calls (the GenAI client, base64 decoding, PIL image
parsing) are function parameters whose Except.error case is a raised
exception. -/

/-- One entry of the shared response_queue: the dict a worker puts. -/
structure QEntry where
  conversation_id : Str
  response : Option Str
  error : Option Str
deriving DecidableEq

/-- The JSON payload returned by the /api/status route. -/
inductive PollStatus where
  | processing
  | ready (conversation_id : Str) (response : Option Str) (error : Option Str)
deriving DecidableEq

/-- Python s.split(",") on a code-point list. -/
def splitComma : Str → List Str
  | [] => [[]]
  | ch :: rest =>
      let r := splitComma rest
      if ch = ',' then [] :: r
      else
        match r with
        | [] => [[ch]]
        | h :: t => (ch :: h) :: t

/-- The marker the startswith check of src/gemma_web_app.py line 99 tests. -/
def dataImageMarker : Str := chars "data:image"

/-- Python str(e) of the IndexError raised by list index out of range. -/
def indexErrMsg : Str := chars "list index out of range"

/-- The data-URI stripping of src/gemma_web_app.py lines 99-100: only a
payload passing the startswith check is split; the [1] index is fallible
(none is the IndexError the except clause catches). -/
def stripDataUri (image_data : Str) : Option Str :=
  if dataImageMarker.isPrefixOf image_data then (splitComma image_data)[1]?
  else some image_data

/-- Python truthiness of an optional string: None and the empty string
are falsy. -/
def pyTruthy : Option Str → Bool
  | none => false
  | some s => !s.isEmpty

/-- The f-string of the except clauses: "Error: " followed by str(e). -/
def pyErrStr (e : Str) : Str := chars "Error: " ++ e

namespace GemmaWebApp

/-- check_status (src/gemma_web_app.py lines 265-278): a non-blocking
get_nowait on the FIFO response_queue; an empty queue yields processing,
otherwise the oldest entry is removed and its fields returned. -/
def check_status (q : List QEntry) : PollStatus × List QEntry :=
  match q with
  | [] => (PollStatus.processing, [])
  | e :: rest => (PollStatus.ready e.conversation_id e.response e.error, rest)

/-- Response text put when the text client is uninitialized
(src/gemma_web_app.py lines 173-177). -/
def clientNotInitResp : Str :=
  chars "Error: Gemma client not initialized. Please check your API key."

/-- Response text put when the vision client is uninitialized
(src/gemma_web_app.py lines 197-201). -/
def visionNotInitResp : Str :=
  chars "Error: Gemma vision client not initialized. Please check your API key."

/-- Error detail put when a client is uninitialized. -/
def clientNotInitErr : Str := chars "Client not initialized"

/-- process_text_query (src/gemma_web_app.py lines 169-191): the worker
body run per submitted text job.  The client call is the external handler
sendFn; its Except.error case is a raised exception, caught by the except
clause of the worker. -/
def process_text_query (textClient : Option (Str → Except Str Str))
    (prompt conversation_id : Str) (q : List QEntry) : List QEntry :=
  match textClient with
  | none =>
      q ++ [⟨conversation_id, some clientNotInitResp, some clientNotInitErr⟩]
  | some sendFn =>
      match sendFn prompt with
      | Except.ok r => q ++ [⟨conversation_id, some r, none⟩]
      | Except.error e => q ++ [⟨conversation_id, none, some e⟩]

/-- process_image_query (src/gemma_web_app.py lines 193-215). -/
def process_image_query (visionClient : Option (Str → Str → Except Str Str))
    (prompt image_data conversation_id : Str) (q : List QEntry) :
    List QEntry :=
  match visionClient with
  | none =>
      q ++ [⟨conversation_id, some visionNotInitResp, some clientNotInitErr⟩]
  | some sendFn =>
      match sendFn prompt image_data with
      | Except.ok r => q ++ [⟨conversation_id, some r, none⟩]
      | Except.error e => q ++ [⟨conversation_id, none, some e⟩]

/-- GemmaClient.send_message (src/gemma_web_app.py lines 85-113).  The
externals are parameters: b64decode, Image.open, the one-shot multimodal
generate_content and the chat-session send; the Except.error cases are
the exceptions the except clause converts into an Error string.  Returns
the result text and the number of model invocations made. -/
def GemmaClient.send_message {B I : Type}
    (b64decode : Str → Except Str B) (imageOpen : B → Except Str I)
    (generate_content : Str → I → Str) (chatSend : Str → Str)
    (use_vision : Bool) (message : Str) (image_data : Option Str) :
    Str × Nat :=
  if pyTruthy image_data && use_vision then
    match stripDataUri (image_data.getD []) with
    | none => (pyErrStr indexErrMsg, 0)
    | some d =>
        match b64decode d with
        | Except.error e => (pyErrStr e, 0)
        | Except.ok bytes =>
            match imageOpen bytes with
            | Except.error e => (pyErrStr e, 0)
            | Except.ok img => (generate_content message img, 1)
  else (chatSend message, 1)

end GemmaWebApp

namespace WebInterface

/-- check_status (src/web_interface.py lines 142-155), identical in body
to the gemma_web_app variant. -/
def check_status (q : List QEntry) : PollStatus × List QEntry :=
  match q with
  | [] => (PollStatus.processing, [])
  | e :: rest => (PollStatus.ready e.conversation_id e.response e.error, rest)

/-- process_text_query (src/web_interface.py lines 73-79): the module
chat_sampler call is the external handler sendFn; a raised exception is
the Except.error case, caught by the except clause. -/
def process_text_query (sendFn : Str → Except Str Str)
    (prompt conversation_id : Str) (q : List QEntry) : List QEntry :=
  match sendFn prompt with
  | Except.ok r => q ++ [⟨conversation_id, some r, none⟩]
  | Except.error e => q ++ [⟨conversation_id, none, some e⟩]

/-- process_image_query (src/web_interface.py lines 81-92): the base64
payload is split at commas and element [1] taken unconditionally, so a
payload without a comma raises IndexError, caught by the except clause
like every other failure of the try body. -/
def process_image_query {B I : Type}
    (b64decode : Str → Except Str B) (imageOpen : B → Except Str I)
    (visionSend : Str → I → Except Str Str)
    (prompt image_data conversation_id : Str) (q : List QEntry) :
    List QEntry :=
  match (splitComma image_data)[1]? with
  | none => q ++ [⟨conversation_id, none, some indexErrMsg⟩]
  | some d =>
      match b64decode d with
      | Except.error e => q ++ [⟨conversation_id, none, some e⟩]
      | Except.ok bytes =>
          match imageOpen bytes with
          | Except.error e => q ++ [⟨conversation_id, none, some e⟩]
          | Except.ok img =>
              match visionSend prompt img with
              | Except.error e => q ++ [⟨conversation_id, none, some e⟩]
              | Except.ok r => q ++ [⟨conversation_id, some r, none⟩]

end WebInterface

namespace AiAssistant

/-- Error string returned by GemmaAssistant.chat when the assistant is
text-only but an image is supplied (src/ai_assistant.py line 79). -/
def multimodalErrMsg : Str :=
  chars "Error: This assistant is not initialized with multimodal capabilities."

/-- GemmaAssistant.chat (src/ai_assistant.py lines 76-86): the capability
gate precedes any sampler call.  The sampler is the external samplerSend;
the returned Nat counts its invocations. -/
def chat {I : Type} (samplerSend : Str → Option I → Str)
    (use_multimodal : Bool) (message : Str) (image : Option I) :
    Str × Nat :=
  if image.isSome && !use_multimodal then (multimodalErrMsg, 0)
  else
    match image with
    | some img => (samplerSend message (some img), 1)
    | none => (samplerSend message none, 1)

end AiAssistant

/-! Embedding of topic_expert.py and gemma_api.py : sessions, priming and reset. -/

/-- One turn of a GenAI chat-session history. -/
inductive Msg where
  | user (text : Str)
  | model (text : Str)
deriving DecidableEq

/-- A GenAI chat session: its accumulated message history. -/
structure ChatSession where
  history : List Msg
deriving DecidableEq

/-- Python model.start_chat(history=[]). -/
def start_chat : ChatSession := ⟨[]⟩

/-- A chat.send_message call on a session: the external model g maps the
history including the new user message to a reply, or raises.  On success
the user message and the reply are appended to the history; on failure
the session is unchanged and the exception propagates to the caller. -/
def chat_send (g : List Msg → Except Str Str) (cs : ChatSession)
    (text : Str) : Except Str (ChatSession × Str) :=
  match g (cs.history ++ [Msg.user text]) with
  | Except.error e => Except.error e
  | Except.ok r =>
      Except.ok (⟨cs.history ++ [Msg.user text, Msg.model r]⟩, r)

namespace TopicExpert

/-- The priming text sent by TopicExpert._send_system_prompt
(src/topic_expert.py lines 68-70), built from the topic. -/
def expertPrompt (topic : Str) : Str :=
  chars "I want you to act as an expert on " ++ topic ++ chars ". "
    ++ chars "Please respond to all questions as if you are a leading authority on this subject. "
    ++ chars "Keep your answers focused on " ++ topic ++ chars "."

/-- TopicExpert._send_system_prompt (src/topic_expert.py lines 65-72):
sends the expert prompt; a raised exception is caught (and only printed),
leaving the session as it was.  The system_prompt string computed by the
callers is unused by the source body, which rebuilds the text from the
topic, so that dead argument is omitted here. -/
def send_system_prompt (g : List Msg → Except Str Str) (topic : Str)
    (cs : ChatSession) : ChatSession :=
  match chat_send g cs (expertPrompt topic) with
  | Except.ok (cs2, _) => cs2
  | Except.error _ => cs

/-- Session setup of TopicExpert.__init__ (src/topic_expert.py lines
62-63): a fresh chat session followed by the hidden priming send. -/
def create (g : List Msg → Except Str Str) (topic : Str) : ChatSession :=
  send_system_prompt g topic start_chat

/-- TopicExpert.reset (src/topic_expert.py lines 90-96): a fresh chat
session — the old one is discarded whatever its history — followed by
the hidden priming send. -/
def reset (g : List Msg → Except Str Str) (topic : Str)
    (_old : ChatSession) : ChatSession :=
  send_system_prompt g topic start_chat

end TopicExpert

namespace GemmaApi

/-- GemmaAPI.reset_chat (src/gemma_api.py lines 112-119): replaces the
chat session with a fresh empty one; no priming is sent. -/
def reset_chat (_old : ChatSession) : ChatSession := start_chat

end GemmaApi

/-! Concrete values used by witnesses and counterexamples. -/

/-- A completed entry of conversation A. -/
def entryA : QEntry := ⟨chars "A", some (chars "answer for A"), none⟩

/-- A completed entry of conversation B. -/
def entryB : QEntry := ⟨chars "B", some (chars "answer for B"), none⟩

/-- A handler that raises on every call. -/
def failSend : Str → Except Str Str := fun _ => Except.error (chars "boom")

/-- A vision handler that raises on every call. -/
def failSend2 : Str → Str → Except Str Str :=
  fun _ _ => Except.error (chars "boom")

/-- A base64 decoder that raises on every call. -/
def failB64 : Str → Except Str (List Nat) :=
  fun _ => Except.error (chars "boom")

/-- A base64 decoder accepting every payload (QUJD decodes to ABC). -/
def okB64 : Str → Except Str (List Nat) := fun _ => Except.ok [65, 66, 67]

/-- An image parser accepting every byte buffer. -/
def okImageOpen : List Nat → Except Str Nat := fun _ => Except.ok 0

/-- An image parser that raises on every call. -/
def failImageOpen : List Nat → Except Str Nat :=
  fun _ => Except.error (chars "cannot identify image file")

/-- A vision model call that succeeds on every input. -/
def okVisionSend : Str → Nat → Except Str Str :=
  fun _ _ => Except.ok (chars "described")

/-- A one-shot multimodal model call used by witnesses. -/
def stubGenContent : Str → Nat → Str := fun _ _ => chars "vision reply"

/-- A chat-session model call used by witnesses. -/
def stubChatSend : Str → Str := fun _ => chars "model reply"


/-- A session model that replies ready to every priming message. -/
def gOkStub : List Msg → Except Str Str := fun _ => Except.ok (chars "ready")

/-- A session model that raises on every call. -/
def gFailStub : List Msg → Except Str Str :=
  fun _ => Except.error (chars "network down")

/-- A session with two earlier turns, used to show reset discards them. -/
def oldSession : ChatSession :=
  ⟨[Msg.user (chars "earlier turn"), Msg.model (chars "earlier reply")]⟩

/-- A base64 decoder that rejects AAAA and accepts everything else, used
to exercise both decode outcomes of one client. -/
def mixedB64 : Str → Except Str (List Nat) :=
  fun s => if s = chars "AAAA" then Except.error (chars "bad base64")
    else Except.ok [65, 66, 67]

/-! Theorems: the claims, their witnesses and counterexamples, and
the helper lemmas they use. -/

/-! Helper lemmas about the chunk split. -/

theorem summarizeChunks_nil (c : Nat) : summarizeChunks [] c = [] := by
  unfold summarizeChunks pyRange
  cases c with
  | zero => rfl
  | succ k =>
      have h : ((List.nil (α := Char)).length + (k + 1) - 1) / (k + 1) = 0 := by
        simp only [List.length_nil, Nat.zero_add, Nat.add_sub_cancel]
        exact Nat.div_eq_of_lt (Nat.lt_succ_self k)
      rw [h]
      rfl

theorem ceil_shift (len c : Nat) (hc : 0 < c) (hl : 0 < len) :
    (len + c - 1) / c = (len - 1) / c + 1 := by
  have h1 : len + c - 1 = (len - 1) + c := by omega
  rw [h1, Nat.add_div_right _ hc]

theorem ceil_drop (len c : Nat) (hc : 0 < c) :
    (len - c + c - 1) / c = (len - 1) / c := by
  rcases le_or_lt c len with h | h
  · have h2 : len - c + c - 1 = len - 1 := by omega
    rw [h2]
  · have h0 : len - c = 0 := by omega
    have e1 : (0 + c - 1) / c = 0 := by
      rw [Nat.zero_add]
      exact Nat.div_eq_of_lt (by omega)
    have e2 : (len - 1) / c = 0 := Nat.div_eq_of_lt (by omega)
    rw [h0, e1, e2]

theorem summarizeChunks_cons (t : Str) (c : Nat) (hc : 0 < c) (ht : t ≠ []) :
    summarizeChunks t c = t.take c :: summarizeChunks (t.drop c) c := by
  have hl : 0 < t.length := List.length_pos.mpr ht
  unfold summarizeChunks pyRange
  rw [List.length_drop, ceil_drop t.length c hc, ceil_shift t.length c hc hl,
    List.range_succ_eq_map]
  simp only [List.map_cons, List.map_map, Nat.zero_mul, List.drop_zero]
  refine congrArg (fun l => t.take c :: l) ?_
  refine List.map_congr_left ?_
  intro k _
  simp only [Function.comp_apply]
  rw [List.drop_drop]
  have harith : Nat.succ k * c = c + k * c := by
    rw [Nat.succ_mul, Nat.add_comm]
  rw [harith]

theorem summarizeChunks_length (t : Str) (c : Nat) :
    (summarizeChunks t c).length = (t.length + c - 1) / c := by
  simp [summarizeChunks, pyRange]

theorem summarizeChunks_flatten (c : Nat) (hc : 0 < c) (t : Str) :
    (summarizeChunks t c).flatten = t := by
  suffices H : ∀ n t, List.length t ≤ n → (summarizeChunks t c).flatten = t from
    H t.length t le_rfl
  intro n
  induction n with
  | zero =>
      intro t hlen
      have ht : t = [] := List.eq_nil_of_length_eq_zero (Nat.le_zero.mp hlen)
      rw [ht, summarizeChunks_nil]
      rfl
  | succ n ih =>
      intro t hlen
      rcases eq_or_ne t [] with rfl | ht
      · rw [summarizeChunks_nil]; rfl
      · have hl : 0 < t.length := List.length_pos.mpr ht
        rw [summarizeChunks_cons t c hc ht]
        have hd : (t.drop c).length ≤ n := by
          rw [List.length_drop]; omega
        simp only [List.flatten_cons]
        rw [ih (t.drop c) hd]
        exact List.take_append_drop c t

theorem summarizeChunks_dropLast (c : Nat) (hc : 0 < c) (t : Str) :
    ∀ ch ∈ (summarizeChunks t c).dropLast, ch.length = c := by
  suffices H : ∀ n t, List.length t ≤ n →
      ∀ ch ∈ (summarizeChunks t c).dropLast, ch.length = c from
    H t.length t le_rfl
  intro n
  induction n with
  | zero =>
      intro t hlen ch hch
      have ht : t = [] := List.eq_nil_of_length_eq_zero (Nat.le_zero.mp hlen)
      rw [ht, summarizeChunks_nil] at hch
      simp at hch
  | succ n ih =>
      intro t hlen ch hch
      rcases eq_or_ne t [] with rfl | ht
      · rw [summarizeChunks_nil] at hch; simp at hch
      · rw [summarizeChunks_cons t c hc ht] at hch
        rcases eq_or_ne (t.drop c) [] with hdz | hdz
        · rw [hdz, summarizeChunks_nil] at hch
          simp at hch
        · rw [summarizeChunks_cons (t.drop c) c hc hdz] at hch
          rw [List.dropLast_cons₂, List.mem_cons] at hch
          rcases hch with hx | hrest
          · have hcl : c ≤ t.length := by
              by_contra hcon
              exact hdz (List.drop_eq_nil_of_le (by omega))
            rw [hx, List.length_take]
            omega
          · have hd : (t.drop c).length ≤ n := by
              rw [List.length_drop]
              have hl : 0 < t.length := List.length_pos.mpr ht
              omega
            have := ih (t.drop c) hd ch
            rw [summarizeChunks_cons (t.drop c) c hc hdz] at this
            exact this hrest

theorem summarizeChunks_getLast (c : Nat) (hc : 0 < c) (t : Str) (ht : t ≠ []) :
    ∃ l, (summarizeChunks t c).getLast? = some l
      ∧ l.length = (if t.length % c = 0 then c else t.length % c) := by
  suffices H : ∀ n t, List.length t ≤ n → t ≠ [] →
      ∃ l, (summarizeChunks t c).getLast? = some l
        ∧ l.length = (if List.length t % c = 0 then c else List.length t % c) from
    H t.length t le_rfl ht
  intro n
  induction n with
  | zero =>
      intro t hlen ht
      exact absurd (List.eq_nil_of_length_eq_zero (Nat.le_zero.mp hlen)) ht
  | succ n ih =>
      intro t hlen ht
      have hl : 0 < t.length := List.length_pos.mpr ht
      rw [summarizeChunks_cons t c hc ht]
      rcases eq_or_ne (t.drop c) [] with hdz | hdz
      · -- the whole text fits in a single chunk
        have hcl : t.length ≤ c := by
          by_contra hcon
          have : (t.drop c).length = 0 := by rw [hdz]; rfl
          rw [List.length_drop] at this
          omega
        rw [hdz, summarizeChunks_nil]
        refine ⟨t.take c, rfl, ?_⟩
        rw [List.take_of_length_le hcl]
        rcases Nat.lt_or_ge t.length c with hlt | hge
        · rw [if_neg ?_, Nat.mod_eq_of_lt hlt]
          rw [Nat.mod_eq_of_lt hlt]
          omega
        · have heq : t.length = c := le_antisymm hcl hge
          rw [heq, Nat.mod_self, if_pos rfl]
      · have hd : (t.drop c).length ≤ n := by
          rw [List.length_drop]; omega
        obtain ⟨l, hlast, hlen2⟩ := ih (t.drop c) hd hdz
        rw [summarizeChunks_cons (t.drop c) c hc hdz] at hlast
        rw [summarizeChunks_cons (t.drop c) c hc hdz]
        refine ⟨l, ?_, ?_⟩
        · rw [List.getLast?_cons_cons]
          exact hlast
        · have hcl : c ≤ t.length := by
            by_contra hcon
            exact hdz (List.drop_eq_nil_of_le (by omega))
          have hmod : t.length % c = (t.drop c).length % c := by
            rw [List.length_drop]
            conv_lhs => rw [show t.length = (t.length - c) + c by omega]
            rw [Nat.add_mod_right]
          rw [hmod]
          exact hlen2

/-- C1: for every text T and chunk size C with len(T) > C, the split of
summarize_document produces contiguous, non-overlapping chunks: every
chunk except the last has length exactly C, the last chunk has length
len(T) mod C (or C when C divides len(T)), and the chunks concatenate in
index order to exactly T. -/
theorem chunk_split_spec (t : Str) (c : Nat) (hc : 0 < c)
    (hlen : c < t.length) :
    (∀ ch ∈ (summarizeChunks t c).dropLast, ch.length = c)
    ∧ (∃ last, (summarizeChunks t c).getLast? = some last
        ∧ last.length = (if t.length % c = 0 then c else t.length % c))
    ∧ (summarizeChunks t c).flatten = t := by
  have ht : t ≠ [] := by
    intro h
    rw [h] at hlen
    exact absurd hlen (by simp)
  exact ⟨summarizeChunks_dropLast c hc t,
    summarizeChunks_getLast c hc t ht,
    summarizeChunks_flatten c hc t⟩

/-- Witness for C1 at the concrete input of the spec (len 15, C = 10):
chunk lengths 10 and 5, concatenating back to the text. -/
theorem chunk_split_spec_witness :
    (∀ ch ∈ (summarizeChunks t15 10).dropLast, ch.length = 10)
    ∧ (∃ last, (summarizeChunks t15 10).getLast? = some last
        ∧ last.length = (if t15.length % 10 = 0 then 10 else t15.length % 10))
    ∧ (summarizeChunks t15 10).flatten = t15 :=
  chunk_split_spec t15 10 (by decide) (by decide)

/-- Trace of the chunk loop: each iteration sends exactly one prompt, the
per-chunk prompt followed by the chunk, in index order. -/
theorem foldl_chunkStep_hist (g : List Str → Str) (n : Nat)
    (l : List (Nat × Str)) (s : Sampler) (acc : List Str) :
    ((l.foldl (chunkStep g n) (s, acc)).1).hist
      = s.hist ++ l.map (fun p => chunkPrompt p.1 n ++ nl2 ++ p.2) := by
  induction l generalizing s acc with
  | nil => simp
  | cons a l ih =>
      simp only [List.foldl_cons, List.map_cons]
      rw [show chunkStep g n (s, acc) a
          = (⟨s.hist ++ [chunkPrompt a.1 n ++ nl2 ++ a.2]⟩,
             acc ++ [g (s.hist ++ [chunkPrompt a.1 n ++ nl2 ++ a.2])]) from rfl]
      rw [ih]
      simp

/-- C2: for every non-empty text T and chunk size C, summarize_document
makes exactly 1 model invocation when len(T) ≤ C and exactly
ceil(len(T)/C) + 1 invocations when len(T) > C — one per chunk, issued in
index order with the numbered per-chunk prompt, plus one final combine
call. -/
theorem summarize_call_count (g : List Str → Str) (c : Nat) (t : Str)
    (s : Sampler) (hc : 0 < c) (ht : t ≠ []) :
    (summarize_document g c s t).1.hist.length
      = s.hist.length + (if c < t.length then (t.length + c - 1) / c + 1 else 1)
    ∧ (c < t.length → ∃ last, (summarize_document g c s t).1.hist
        = s.hist
          ++ (summarizeChunks t c).enum.map
              (fun p => chunkPrompt p.1 (summarizeChunks t c).length ++ nl2 ++ p.2)
          ++ [last])
    ∧ (¬ c < t.length → (summarize_document g c s t).1.hist
        = s.hist ++ [docPrompt ++ nl2 ++ t]) := by
  by_cases hlt : c < t.length
  · have hrun : summarize_document g c s t
        = process_text g
            (((summarizeChunks t c).enum.foldl
              (chunkStep g (summarizeChunks t c).length) (s, [])).1)
            (List.intercalate nl2
              (((summarizeChunks t c).enum.foldl
                (chunkStep g (summarizeChunks t c).length) (s, [])).2))
            combinePrompt := by
      unfold summarize_document
      rw [if_neg ht, if_pos hlt]
    have hfold := foldl_chunkStep_hist g (summarizeChunks t c).length
      ((summarizeChunks t c).enum) s []
    refine ⟨?_, fun _ => ?_, fun hcon => absurd hlt hcon⟩
    · rw [hrun]
      simp only [process_text, send_message]
      rw [hfold]
      simp only [List.length_append, List.length_map, List.enum_length,
        List.length_cons, List.length_nil]
      rw [summarizeChunks_length, if_pos hlt]
      omega
    · rw [hrun]
      simp only [process_text, send_message]
      refine ⟨combinePrompt ++ nl2 ++ List.intercalate nl2
          (((summarizeChunks t c).enum.foldl
            (chunkStep g (summarizeChunks t c).length) (s, [])).2), ?_⟩
      rw [hfold]
  · have hrun : summarize_document g c s t = process_text g s t docPrompt := by
      unfold summarize_document
      rw [if_neg ht, if_neg hlt]
    refine ⟨?_, fun hcon => absurd hcon hlt, fun _ => ?_⟩
    · rw [hrun]
      simp only [process_text, send_message]
      rw [if_neg hlt]
      simp
    · rw [hrun]
      rfl

/-- Witness for C2 at the concrete input of the spec: len(T) = 15 and
C = 10 give ceil(15/10) + 1 = 3 model invocations. -/
theorem summarize_call_count_witness :
    (summarize_document gStub 10 ⟨[]⟩ t15).1.hist.length
      = (Sampler.mk []).hist.length
        + (if 10 < t15.length then (t15.length + 10 - 1) / 10 + 1 else 1) :=
  (summarize_call_count gStub 10 t15 ⟨[]⟩ (by decide) (by decide)).1

/-- C8 counterexample: the single-space text is empty after trimming, yet
summarize_document does not fail and performs one model invocation — the
source (src/ai_assistant.py line 91) checks Python falsiness of the text,
which only the empty string satisfies, not trimmed emptiness. -/
theorem empty_trim_counterexample :
    pyStrip [' '] = []
    ∧ (summarize_document gStub 10000 ⟨[]⟩ [' ']).1.hist.length = 1
    ∧ (summarize_document gStub 10000 ⟨[]⟩ [' ']).2 ≠ extractErrMsg := by
  refine ⟨by decide, by decide, by decide⟩

/-- C8 amended: summarize_document fails with the extraction-error message
and makes no model invocation exactly when the input text is the empty
string (whitespace-only text is summarized normally). -/
theorem empty_input_spec (g : List Str → Str) (c : Nat) (s : Sampler) :
    summarize_document g c s [] = (s, extractErrMsg) := by
  unfold summarize_document
  rw [if_pos rfl]

/-- C3: the poll operation is non-blocking and conversation-agnostic: an
empty result store yields processing; otherwise the oldest entry is
removed and returned regardless of which conversation it belongs to, so
each completed result is delivered at most once, and a poller expecting
conversation A can receive the entry of conversation B when B completed
first.  Both web front ends behave identically. -/
theorem check_status_spec (q : List QEntry) :
    (q = [] → GemmaWebApp.check_status q = (PollStatus.processing, []))
    ∧ (∀ e rest, q = e :: rest →
        GemmaWebApp.check_status q
          = (PollStatus.ready e.conversation_id e.response e.error, rest))
    ∧ WebInterface.check_status q = GemmaWebApp.check_status q := by
  refine ⟨fun h => by rw [h]; rfl, fun e rest h => by rw [h]; rfl, ?_⟩
  cases q <;> rfl

/-- Witness for C3: with the job of conversation B completing first, a
poll returns and removes the entry of B even though the two stored
entries belong to different conversations. -/
theorem check_status_spec_witness :
    GemmaWebApp.check_status [entryB, entryA]
      = (PollStatus.ready entryB.conversation_id entryB.response entryB.error,
         [entryA])
    ∧ entryB.conversation_id ≠ entryA.conversation_id :=
  ⟨(check_status_spec [entryB, entryA]).2.1 entryB [entryA] rfl, by decide⟩

/-- C4: every failing handler execution (a raised exception anywhere in
the worker try body) is caught and published into the result store as the
error field of the job entry, through the same queue a success uses; the
worker function returns normally on every failing job, in both web front
ends. -/
theorem worker_failure_published {B I : Type}
    (sendFn : Str → Except Str Str) (vSendFn : Str → Str → Except Str Str)
    (b64decode : Str → Except Str B) (imageOpen : B → Except Str I)
    (visionSend : Str → I → Except Str Str)
    (prompt image_data conversation_id e d : Str) (q : List QEntry)
    (h1 : sendFn prompt = Except.error e)
    (h2 : vSendFn prompt image_data = Except.error e)
    (h3 : (splitComma image_data)[1]? = some d)
    (h4 : b64decode d = Except.error e) :
    GemmaWebApp.process_text_query (some sendFn) prompt conversation_id q
      = q ++ [⟨conversation_id, none, some e⟩]
    ∧ GemmaWebApp.process_image_query (some vSendFn) prompt image_data
        conversation_id q = q ++ [⟨conversation_id, none, some e⟩]
    ∧ WebInterface.process_text_query sendFn prompt conversation_id q
      = q ++ [⟨conversation_id, none, some e⟩]
    ∧ WebInterface.process_image_query b64decode imageOpen visionSend
        prompt image_data conversation_id q
      = q ++ [⟨conversation_id, none, some e⟩] := by
  refine ⟨?_, ?_, ?_, ?_⟩
  · unfold GemmaWebApp.process_text_query
    simp only [h1]
  · unfold GemmaWebApp.process_image_query
    simp only [h2]
  · unfold WebInterface.process_text_query
    simp only [h1]
  · unfold WebInterface.process_image_query
    simp only [h3, h4]

/-- Witness for C4: concrete failing handlers on both front ends, with a
comma-carrying payload so the web_interface decode step is reached. -/
theorem worker_failure_published_witness :
    GemmaWebApp.process_text_query (some failSend) (chars "p") (chars "c") []
      = [⟨chars "c", none, some (chars "boom")⟩]
    ∧ GemmaWebApp.process_image_query (some failSend2) (chars "p")
        (chars "x,y") (chars "c") [] = [⟨chars "c", none, some (chars "boom")⟩]
    ∧ WebInterface.process_text_query failSend (chars "p") (chars "c") []
      = [⟨chars "c", none, some (chars "boom")⟩]
    ∧ WebInterface.process_image_query failB64 okImageOpen okVisionSend
        (chars "p") (chars "x,y") (chars "c") []
      = [⟨chars "c", none, some (chars "boom")⟩] :=
  worker_failure_published failSend failSend2 failB64 okImageOpen okVisionSend
    (chars "p") (chars "x,y") (chars "c") (chars "boom") (chars "y") []
    rfl rfl (by decide) rfl

/-- C10: a job submitted while the corresponding client is uninitialized
is published with BOTH a non-null response (an error-prefixed message)
and a non-null error detail, so a ready poll result is not guaranteed to
have exactly one of response and error set. -/
theorem uninit_both_fields_spec (prompt image_data conversation_id : Str)
    (q : List QEntry) :
    GemmaWebApp.process_text_query none prompt conversation_id q
      = q ++ [⟨conversation_id, some GemmaWebApp.clientNotInitResp,
               some GemmaWebApp.clientNotInitErr⟩]
    ∧ GemmaWebApp.process_image_query none prompt image_data conversation_id q
      = q ++ [⟨conversation_id, some GemmaWebApp.visionNotInitResp,
               some GemmaWebApp.clientNotInitErr⟩]
    ∧ GemmaWebApp.check_status
        (GemmaWebApp.process_text_query none prompt conversation_id [])
      = (PollStatus.ready conversation_id
          (some GemmaWebApp.clientNotInitResp)
          (some GemmaWebApp.clientNotInitErr), []) :=
  ⟨rfl, rfl, rfl⟩

/-- C5 counterexample: on the text-only web client (use_vision false),
send_message with an image supplied makes one model invocation and
returns the model reply: the image is silently ignored and no capability
error is produced, contradicting the claimed CapabilityError with zero
invocations (src/gemma_web_app.py lines 96-111 fall through to the
text-only branch). -/
theorem capability_gating_counterexample :
    GemmaWebApp.GemmaClient.send_message okB64 okImageOpen stubGenContent
        stubChatSend false (chars "hi") (some (chars "imagePayload"))
      = (chars "model reply", 1)
    ∧ (GemmaWebApp.GemmaClient.send_message okB64 okImageOpen stubGenContent
        stubChatSend false (chars "hi") (some (chars "imagePayload"))).2
      ≠ 0 :=
  ⟨rfl, by decide⟩

/-- C5 amended: the capability gate holds in GemmaAssistant.chat — an
image on a text-only assistant returns the capability-error string with
zero sampler invocations — whereas GemmaClient.send_message on a
text-only client instead ignores the image and makes exactly one
text-only model call. -/
theorem capability_gating_amended {B I J : Type}
    (samplerSend : Str → Option J → Str) (message : Str) (img : J)
    (b64decode : Str → Except Str B) (imageOpen : B → Except Str I)
    (generate_content : Str → I → Str) (chatSend : Str → Str)
    (image_data : Option Str) :
    AiAssistant.chat samplerSend false message (some img)
      = (AiAssistant.multimodalErrMsg, 0)
    ∧ GemmaWebApp.GemmaClient.send_message b64decode imageOpen
        generate_content chatSend false message image_data
      = (chatSend message, 1) := by
  constructor
  · rfl
  · simp [GemmaWebApp.GemmaClient.send_message]

/-- C6: after reset, the session history is exactly the replayed priming
exchange when the session primes (TopicExpert always does) — no turn of
the pre-reset history survives, whatever that history was — and
GemmaAPI.reset_chat, which has no priming, leaves an empty history. -/
theorem reset_history_spec (g : List Msg → Except Str Str) (topic : Str)
    (old : ChatSession) (r : Str)
    (h : g [Msg.user (TopicExpert.expertPrompt topic)] = Except.ok r) :
    (TopicExpert.reset g topic old).history
      = [Msg.user (TopicExpert.expertPrompt topic), Msg.model r]
    ∧ GemmaApi.reset_chat old = start_chat
    ∧ (GemmaApi.reset_chat old).history = [] := by
  refine ⟨?_, rfl, rfl⟩
  unfold TopicExpert.reset TopicExpert.send_system_prompt chat_send
  have h2 : start_chat.history ++ [Msg.user (TopicExpert.expertPrompt topic)]
      = [Msg.user (TopicExpert.expertPrompt topic)] := rfl
  rw [h2, h]
  rfl

/-- Witness for C6: a priming reply named ready; the two turns of the
old session are gone after reset. -/
theorem reset_history_spec_witness :
    (TopicExpert.reset gOkStub (chars "chemistry") oldSession).history
      = [Msg.user (TopicExpert.expertPrompt (chars "chemistry")),
         Msg.model (chars "ready")]
    ∧ GemmaApi.reset_chat oldSession = start_chat
    ∧ (GemmaApi.reset_chat oldSession).history = [] :=
  reset_history_spec gOkStub (chars "chemistry") oldSession (chars "ready") rfl

/-- C9: when the hidden priming send raises, create and reset still
return normally — the exception is swallowed inside the priming helper —
and the resulting session has an empty history, with no persona priming
applied. -/
theorem priming_failure_spec (g : List Msg → Except Str Str) (topic e : Str)
    (old : ChatSession)
    (h : g [Msg.user (TopicExpert.expertPrompt topic)] = Except.error e) :
    (TopicExpert.create g topic).history = []
    ∧ (TopicExpert.reset g topic old).history = [] := by
  have h2 : start_chat.history ++ [Msg.user (TopicExpert.expertPrompt topic)]
      = [Msg.user (TopicExpert.expertPrompt topic)] := rfl
  constructor
  · unfold TopicExpert.create TopicExpert.send_system_prompt chat_send
    rw [h2, h]
    rfl
  · unfold TopicExpert.reset TopicExpert.send_system_prompt chat_send
    rw [h2, h]
    rfl

/-- Witness for C9: a model that raises on the priming send still yields
sessions, both freshly created and reset, with empty history. -/
theorem priming_failure_spec_witness :
    (TopicExpert.create gFailStub (chars "chemistry")).history = []
    ∧ (TopicExpert.reset gFailStub (chars "chemistry") oldSession).history
      = [] :=
  priming_failure_spec gFailStub (chars "chemistry") (chars "network down")
    oldSession rfl

/-! Lemmas about comma splitting, for the data-URI stripping claim. -/


theorem isPrefixOf_append (l : Str) : ∀ p t : Str, l.isPrefixOf p = true →
    l.isPrefixOf (p ++ t) = true := by
  induction l with
  | nil =>
      intro p t _
      cases p ++ t <;> rfl
  | cons a l ih =>
      intro p t h
      cases p with
      | nil => exact absurd h (by simp [List.isPrefixOf])
      | cons b p =>
          simp only [List.cons_append, List.isPrefixOf, Bool.and_eq_true]
            at h ⊢
          exact ⟨h.1, ih p t h.2⟩

theorem splitComma_no_comma (l : Str) (h : ',' ∉ l) : splitComma l = [l] := by
  induction l with
  | nil => rfl
  | cons a l ih =>
      have ha : ¬ (a = ',') := fun heq => h (heq ▸ List.mem_cons_self a l)
      have hl : ',' ∉ l := fun hm => h (List.mem_cons_of_mem a hm)
      simp only [splitComma, if_neg ha, ih hl]

theorem splitComma_append (l1 l2 : Str) (h : ',' ∉ l1) :
    splitComma (l1 ++ ',' :: l2) = l1 :: splitComma l2 := by
  induction l1 with
  | nil => simp [splitComma]
  | cons a l ih =>
      have ha : ¬ (a = ',') := fun heq => h (heq ▸ List.mem_cons_self a l)
      have hl : ',' ∉ l := fun hm => h (List.mem_cons_of_mem a hm)
      simp only [List.cons_append, splitComma, if_neg ha]
      rw [show List.append l (',' :: l2) = l ++ ',' :: l2 from rfl, ih hl]

/-- C7 counterexample: web_interface.process_image_query requires a
comma-delimited data-URI payload.  The raw base64 string QUJD carries no
data-URI prefix, so per the claim it should be decoded as is; instead the
unconditional split-and-index publishes an IndexError without ever
invoking the decoder, even though the decoder accepts the string
(src/web_interface.py line 85). -/
theorem strip_required_counterexample :
    okB64 (chars "QUJD") = Except.ok [65, 66, 67]
    ∧ WebInterface.process_image_query okB64 okImageOpen okVisionSend
        (chars "p") (chars "QUJD") (chars "c") []
      = [⟨chars "c", none, some indexErrMsg⟩] :=
  ⟨rfl, rfl⟩

/-- C7 amended: in gemma_web_app, send_message strips the data-URI prefix
exactly when the startswith check fires (a prefix-free payload passes
through unchanged) and every base64-decode or image-parse failure is
returned as an Error string with zero model invocations rather than
raised; in web_interface, the payload must contain a comma — a comma-free
payload is published as an IndexError without any decode attempt. -/
theorem image_decode_spec {B I : Type}
    (b64decode : Str → Except Str B) (imageOpen : B → Except Str I)
    (generate_content : Str → I → Str) (chatSend : Str → Str)
    (visionSend : Str → I → Except Str Str)
    (head s2 raw pay d pay2 d2 e e2 wiPayload : Str) (bytes : B)
    (message conversation_id : Str) (q : List QEntry)
    (hpre : dataImageMarker.isPrefixOf head = true)
    (hheadc : ',' ∉ head) (hs : ',' ∉ s2)
    (hnopre : dataImageMarker.isPrefixOf raw = false)
    (hpay : pay ≠ []) (hstrip : stripDataUri pay = some d)
    (hb : b64decode d = Except.error e)
    (hpay2 : pay2 ≠ []) (hstrip2 : stripDataUri pay2 = some d2)
    (hb2 : b64decode d2 = Except.ok bytes)
    (hio : imageOpen bytes = Except.error e2)
    (hcomma : ',' ∉ wiPayload) :
    stripDataUri (head ++ ',' :: s2) = some s2
    ∧ stripDataUri raw = some raw
    ∧ GemmaWebApp.GemmaClient.send_message b64decode imageOpen
        generate_content chatSend true message (some pay)
      = (pyErrStr e, 0)
    ∧ GemmaWebApp.GemmaClient.send_message b64decode imageOpen
        generate_content chatSend true message (some pay2)
      = (pyErrStr e2, 0)
    ∧ WebInterface.process_image_query b64decode imageOpen visionSend
        message wiPayload conversation_id q
      = q ++ [⟨conversation_id, none, some indexErrMsg⟩] := by
  refine ⟨?_, ?_, ?_, ?_, ?_⟩
  · unfold stripDataUri
    have hpre2 : dataImageMarker.isPrefixOf (head ++ ',' :: s2) = true :=
      isPrefixOf_append dataImageMarker head (',' :: s2) hpre
    rw [if_pos hpre2, splitComma_append head s2 hheadc,
      splitComma_no_comma s2 hs]
    rfl
  · simp [stripDataUri, hnopre]
  · obtain ⟨a, l, rfl⟩ := List.exists_cons_of_ne_nil hpay
    simp [GemmaWebApp.GemmaClient.send_message, pyTruthy, hstrip, hb]
  · obtain ⟨a, l, rfl⟩ := List.exists_cons_of_ne_nil hpay2
    simp [GemmaWebApp.GemmaClient.send_message, pyTruthy, hstrip2, hb2, hio]
  · unfold WebInterface.process_image_query
    simp [splitComma_no_comma wiPayload hcomma]

/-- Witness for C7 amended: a prefixed payload is stripped to QUJD, a raw
payload passes through, a rejected decode and a rejected image parse each
come back as an Error string with zero invocations, and a comma-free
payload on the other front end is published as an IndexError. -/
theorem image_decode_spec_witness :
    stripDataUri (chars "data:image/png;base64" ++ ',' :: chars "QUJD")
      = some (chars "QUJD")
    ∧ stripDataUri (chars "AAAA") = some (chars "AAAA")
    ∧ GemmaWebApp.GemmaClient.send_message mixedB64 failImageOpen
        stubGenContent stubChatSend true (chars "hi") (some (chars "AAAA"))
      = (pyErrStr (chars "bad base64"), 0)
    ∧ GemmaWebApp.GemmaClient.send_message mixedB64 failImageOpen
        stubGenContent stubChatSend true (chars "hi") (some (chars "BBBB"))
      = (pyErrStr (chars "cannot identify image file"), 0)
    ∧ WebInterface.process_image_query mixedB64 failImageOpen okVisionSend
        (chars "hi") (chars "QUJD") (chars "c") []
      = [⟨chars "c", none, some indexErrMsg⟩] :=
  image_decode_spec mixedB64 failImageOpen stubGenContent stubChatSend
    okVisionSend (chars "data:image/png;base64") (chars "QUJD")
    (chars "AAAA") (chars "AAAA") (chars "AAAA") (chars "BBBB")
    (chars "BBBB") (chars "bad base64") (chars "cannot identify image file")
    (chars "QUJD") [65, 66, 67] (chars "hi") (chars "c") []
    (by decide) (by decide) (by decide) (by decide) (by decide) (by decide)
    rfl (by decide) (by decide) rfl rfl (by decide)

end Gemma3
